import Mathlib

/-!
Verification development for the carter_api_integration provider-orchestration
core. Shallow embedding of:

  * app/services/circuit_breaker.py   (CircuitBreaker state machine)
  * app/services/universal_provider.py (search_single retry loop, search_all
    fan-out / fan-in reduction)
  * app/services/providers/rate_hawk.py (normalize)

Conventions of the embedding: wall-clock times are explicit rational
parameters (the Python code reads time.time()); Python dict objects with
string keys are association lists with first-match lookup and
update-in-place-or-append insertion, mirroring insertion-ordered dicts;
fallible Python code is modelled with Except / Option, and a caught
exception is a value, never a Lean failure. Logging calls are elided except
where a logging argument itself can raise (rate_hawk.py line 341), which is
modelled faithfully.
-/

namespace CarterApi

/-! ## Circuit breaker (app/services/circuit_breaker.py) -/

/-- CircuitState enum of circuit_breaker.py (CLOSED / OPEN / HALF_OPEN). -/
inductive CircuitState where
  | closed
  | opened
  | halfOpen
deriving DecidableEq, Repr

/-- State of one CircuitBreaker instance. failure_count is the Python
int counter (never negative: it is only set to 0 or incremented), and
last_failure_time mirrors the Optional[float] attribute. -/
structure CircuitBreaker where
  failure_threshold : Int
  timeout : Rat
  reset_timeout : Rat
  name : String
  failure_count : Nat
  last_failure_time : Option Rat
  state : CircuitState
deriving DecidableEq, Repr

/-- Python str.strip(): leading and trailing whitespace removed. Defined
over the character list so that it evaluates inside the kernel. -/
def pyStrip (s : String) : String :=
  String.mk
    (((s.toList.dropWhile Char.isWhitespace).reverse.dropWhile
      Char.isWhitespace).reverse)

namespace CircuitBreaker

/-- Embeds CircuitBreaker.__init__ with its parameter validation
(circuit_breaker.py lines 33-50). The isinstance checks are carried by the
Lean types of the arguments; the numeric positivity checks and the name
check are explicit. -/
def init (failure_threshold : Int) (timeout reset_timeout : Rat)
    (name : String) : Except String CircuitBreaker :=
  if failure_threshold ≤ 0 then
    .error "failure_threshold must be a positive integer"
  else if timeout ≤ 0 then
    .error "timeout must be a positive number"
  else if reset_timeout ≤ 0 then
    .error "reset_timeout must be a positive number"
  else if pyStrip name = "" then
    .error "name must be a non-empty string"
  else
    .ok { failure_threshold := failure_threshold
          timeout := timeout
          reset_timeout := reset_timeout
          name := pyStrip name
          failure_count := 0
          last_failure_time := none
          state := .closed }

/-- Embeds _update_state (lines 68-73): the lazy Open to HalfOpen
transition, evaluated on read. The Python guard is
`if self._last_failure_time and (now - self._last_failure_time) >= self.reset_timeout`,
where the first conjunct is float truthiness (None and 0.0 are falsy). -/
def updateState (cb : CircuitBreaker) (now : Rat) : CircuitBreaker :=
  if cb.state = .opened then
    match cb.last_failure_time with
    | some t =>
        if t ≠ 0 ∧ now - t ≥ cb.reset_timeout then
          { cb with state := .halfOpen }
        else cb
    | none => cb
  else cb

/-- Embeds the state property (lines 62-66): _update_state as a side effect,
then a read of the state. Returns the updated breaker and the observed
state. -/
def readState (cb : CircuitBreaker) (now : Rat) :
    CircuitBreaker × CircuitState :=
  let cb1 := cb.updateState now
  (cb1, cb1.state)

/-- Embeds _on_success (lines 91-96): reset the counter to zero, and close
the circuit when the trial call in HALF_OPEN succeeded. -/
def onSuccess (cb : CircuitBreaker) : CircuitBreaker :=
  if cb.state = .halfOpen then
    { cb with failure_count := 0, state := .closed }
  else
    { cb with failure_count := 0 }

/-- Embeds _on_failure (lines 98-105): increment the counter, stamp the
failure time, and open the circuit once the counter reaches the
threshold. -/
def onFailure (cb : CircuitBreaker) (now : Rat) : CircuitBreaker :=
  if ((cb.failure_count + 1 : Nat) : Int) ≥ cb.failure_threshold then
    { cb with failure_count := cb.failure_count + 1
              last_failure_time := some now
              state := .opened }
  else
    { cb with failure_count := cb.failure_count + 1
              last_failure_time := some now }

/-- Outcome of one pass through CircuitBreaker.call. -/
inductive CallResult where
  | rejectedOpen
  | succeeded
  | failedThrough
deriving DecidableEq, Repr

/-- Embeds CircuitBreaker.call (lines 75-89). tCheck is the time at the
_update_state read, tOutcome the time stamped by _on_failure.
funcSucceeds abstracts whether the awaited wrapped call returns or raises.
The third component counts invocations of the wrapped call, so that
"rejected with zero network calls" is a provable statement rather than a
definition. -/
def call (cb : CircuitBreaker) (tCheck tOutcome : Rat)
    (funcSucceeds : Bool) : CircuitBreaker × CallResult × Nat :=
  if (cb.updateState tCheck).state = .opened then
    (cb.updateState tCheck, .rejectedOpen, 0)
  else if funcSucceeds then
    ((cb.updateState tCheck).onSuccess, .succeeded, 1)
  else
    ((cb.updateState tCheck).onFailure tOutcome, .failedThrough, 1)

/-- Embeds reset (lines 107-112). -/
def reset (cb : CircuitBreaker) : CircuitBreaker :=
  { cb with failure_count := 0, last_failure_time := none, state := .closed }

end CircuitBreaker

/-- The operations through which the rest of the code base touches a
breaker: a gated call, a read of the state property, and the administrative
reset. -/
inductive CBEvent where
  | callEv (tCheck tOutcome : Rat) (succeeds : Bool)
  | readEv (t : Rat)
  | resetEv
deriving Repr

/-- One event applied to a breaker. -/
def CBEvent.step (cb : CircuitBreaker) : CBEvent → CircuitBreaker
  | .callEv t1 t2 s => (cb.call t1 t2 s).1
  | .readEv t => cb.updateState t
  | .resetEv => cb.reset

/-- Timestamps carried by an event are positive (time.time() is a positive
wall-clock value). -/
def CBEvent.timesPos : CBEvent → Prop
  | .callEv t1 t2 _ => 0 < t1 ∧ 0 < t2
  | .readEv t => 0 < t
  | .resetEv => True

/-- A breaker after a sequence of events. -/
def CircuitBreaker.run (cb : CircuitBreaker) (evs : List CBEvent) :
    CircuitBreaker :=
  evs.foldl CBEvent.step cb

/-- Reachability invariant of the breaker state machine: whenever the
circuit is not closed, the counter has reached the threshold and a positive
last failure time is recorded. -/
def CBInv (cb : CircuitBreaker) : Prop :=
  cb.state ≠ .closed →
    cb.failure_threshold ≤ (cb.failure_count : Int) ∧
      ∃ t, cb.last_failure_time = some t ∧ 0 < t

theorem cbInv_updateState (cb : CircuitBreaker) (now : Rat)
    (h : CBInv cb) : CBInv (cb.updateState now) := by
  unfold CircuitBreaker.updateState
  split
  next hopen =>
    split
    next t hl =>
      split
      next hc =>
        intro _
        rcases h (by simp [hopen]) with ⟨h1, t', ht', hpos⟩
        have hteq : t' = t := by
          rw [hl] at ht'
          exact (Option.some_inj.mp ht').symm
        exact ⟨h1, t, by simpa using hl, hteq ▸ hpos⟩
      next hc => exact h
    next hl => exact h
  next hopen => exact h

theorem cbInv_onSuccess (cb : CircuitBreaker) (hno : cb.state ≠ .opened) :
    CBInv cb.onSuccess := by
  unfold CircuitBreaker.onSuccess
  split
  next hhalf => intro hs; simp at hs
  next hhalf =>
    intro hs
    exfalso
    cases hst : cb.state with
    | closed => exact hs (by simp [hst])
    | opened => exact hno hst
    | halfOpen => exact hhalf hst

theorem cbInv_onFailure (cb : CircuitBreaker) (now : Rat) (hpos : 0 < now)
    (h : CBInv cb) : CBInv (cb.onFailure now) := by
  unfold CircuitBreaker.onFailure
  split
  next hge =>
    intro _
    exact ⟨by simpa using hge, now, rfl, hpos⟩
  next hge =>
    intro hs
    rcases h (by simpa using hs) with ⟨h1, t, ht, hp⟩
    exact ⟨by omega, now, rfl, hpos⟩

theorem cbInv_reset (cb : CircuitBreaker) : CBInv cb.reset := by
  intro h; simp [CircuitBreaker.reset] at h

theorem cbInv_call (cb : CircuitBreaker) (t1 t2 : Rat) (s : Bool)
    (h1 : 0 < t1) (h2 : 0 < t2) (h : CBInv cb) :
    CBInv (cb.call t1 t2 s).1 := by
  unfold CircuitBreaker.call
  have hu := cbInv_updateState cb t1 h
  split
  next => exact hu
  next hno =>
    split
    · exact cbInv_onSuccess _ hno
    · exact cbInv_onFailure _ t2 h2 hu

theorem cbInv_step (cb : CircuitBreaker) (e : CBEvent)
    (hp : e.timesPos) (h : CBInv cb) : CBInv (CBEvent.step cb e) := by
  cases e with
  | callEv t1 t2 s => exact cbInv_call cb t1 t2 s hp.1 hp.2 h
  | readEv t => exact cbInv_updateState cb t h
  | resetEv => exact cbInv_reset cb

theorem cbInv_run (cb : CircuitBreaker) (evs : List CBEvent)
    (hp : ∀ e ∈ evs, e.timesPos) (h : CBInv cb) :
    CBInv (cb.run evs) := by
  induction evs generalizing cb with
  | nil => exact h
  | cons e rest ih =>
      exact ih (CBEvent.step cb e)
        (fun x hx => hp x (List.mem_cons_of_mem e hx))
        (cbInv_step cb e (hp e (List.mem_cons_self e rest)) h)

theorem cbInv_init (th : Int) (tmo rt : Rat) (nm : String)
    (cb : CircuitBreaker) (h : CircuitBreaker.init th tmo rt nm = .ok cb) :
    CBInv cb := by
  unfold CircuitBreaker.init at h
  split at h
  · exact absurd h (by simp)
  · split at h
    · exact absurd h (by simp)
    · split at h
      · exact absurd h (by simp)
      · split at h
        · exact absurd h (by simp)
        · intro hs
          cases h
          simp at hs

/-- C3: when the consecutive-failure counter reaches failure_threshold via a
recorded failure, the breaker flips from Closed to Open; the immediately
following attempt through the breaker (any attempt made before
reset_timeout has elapsed since that failure) is rejected as circuit-open
with zero invocations of the wrapped call; and a success recorded while
Closed resets the counter to exactly zero. -/
theorem claim_C3_threshold_opens_then_rejects
    (cb : CircuitBreaker) (hclosed : cb.state = .closed)
    (hcnt : (cb.failure_count : Int) + 1 = cb.failure_threshold)
    (tfail tnext tEnd : Rat) (s : Bool)
    (hwin : tnext - tfail < cb.reset_timeout) :
    (cb.onFailure tfail).state = .opened ∧
    ((cb.onFailure tfail).call tnext tEnd s).2.1 = .rejectedOpen ∧
    ((cb.onFailure tfail).call tnext tEnd s).2.2 = 0 ∧
    (∀ cb' : CircuitBreaker, cb'.state = .closed →
      (CircuitBreaker.onSuccess cb').failure_count = 0) := by
  have hop : cb.onFailure tfail =
      { cb with failure_count := cb.failure_count + 1
                last_failure_time := some tfail
                state := .opened } := by
    unfold CircuitBreaker.onFailure
    rw [if_pos (by omega)]
  have hnotyet : ¬(tfail ≠ 0 ∧ tnext - tfail ≥ cb.reset_timeout) := by
    rintro ⟨-, hge⟩
    exact absurd hge (not_le.mpr hwin)
  have hupd : (cb.onFailure tfail).updateState tnext = cb.onFailure tfail := by
    rw [hop]
    simp [CircuitBreaker.updateState, hnotyet]
  have hcall : (cb.onFailure tfail).call tnext tEnd s =
      ((cb.onFailure tfail).updateState tnext, .rejectedOpen, 0) := by
    unfold CircuitBreaker.call
    rw [if_pos (by rw [hupd, hop])]
  refine ⟨by rw [hop], by rw [hcall], by rw [hcall], ?_⟩
  intro cb' hc'
  unfold CircuitBreaker.onSuccess
  rw [if_neg (by rw [hc']; simp)]

/-- Concrete breaker for the C3 witness: one failure away from the
threshold, in the Closed state. -/
def cbAtEdge : CircuitBreaker :=
  { failure_threshold := 3
    timeout := 30
    reset_timeout := 60
    name := "cb_tbo"
    failure_count := 2
    last_failure_time := some 10
    state := .closed }

/-- Witness for C3 at a concrete breaker: third failure at t=10, next
attempt at t=11 (inside the 60-unit window). -/
theorem claim_C3_witness :
    (cbAtEdge.onFailure 10).state = .opened ∧
    ((cbAtEdge.onFailure 10).call 11 11 true).2.1 = .rejectedOpen ∧
    ((cbAtEdge.onFailure 10).call 11 11 true).2.2 = 0 ∧
    (∀ cb' : CircuitBreaker, cb'.state = .closed →
      (CircuitBreaker.onSuccess cb').failure_count = 0) :=
  claim_C3_threshold_opens_then_rejects cbAtEdge rfl (by norm_num [cbAtEdge])
    10 11 11 true (by norm_num [cbAtEdge])

/-- C4: for an Open breaker reached by any run of the system events from a
validly constructed breaker, once reset_timeout has elapsed since the last
failure the next read of the state property observes HalfOpen (the lazy
check); a successful trial call then yields Closed with the counter exactly
0; a failed trial call yields Open again with the new reset window stamped
from that failure. -/
theorem claim_C4_halfopen_trial
    (th : Int) (tmo rt : Rat) (nm : String) (cb0 : CircuitBreaker)
    (hinit : CircuitBreaker.init th tmo rt nm = .ok cb0)
    (evs : List CBEvent) (hpos : ∀ e ∈ evs, e.timesPos)
    (cb : CircuitBreaker) (hcb : cb = cb0.run evs)
    (hopen : cb.state = .opened)
    (now tEnd : Rat) (htEnd : 0 < tEnd)
    (helapsed : ∀ t, cb.last_failure_time = some t →
      cb.reset_timeout ≤ now - t) :
    (cb.readState now).2 = .halfOpen ∧
    ((cb.call now tEnd true).1.state = .closed ∧
      (cb.call now tEnd true).1.failure_count = 0) ∧
    ((cb.call now tEnd false).1.state = .opened ∧
      (cb.call now tEnd false).1.last_failure_time = some tEnd) := by
  have hinv : CBInv cb := by
    rw [hcb]
    exact cbInv_run cb0 evs hpos (cbInv_init th tmo rt nm cb0 hinit)
  rcases hinv (by rw [hopen]; simp) with ⟨hth, t, hlast, htpos⟩
  have hupd : cb.updateState now = { cb with state := .halfOpen } := by
    unfold CircuitBreaker.updateState
    rw [if_pos hopen]
    simp only [hlast]
    rw [if_pos ⟨ne_of_gt htpos, helapsed t hlast⟩]
  have hcallT : cb.call now tEnd true =
      (({ cb with state := .halfOpen } : CircuitBreaker).onSuccess,
        .succeeded, 1) := by
    unfold CircuitBreaker.call
    rw [hupd, if_neg (by simp), if_pos rfl]
  have hcallF : cb.call now tEnd false =
      (({ cb with state := .halfOpen } : CircuitBreaker).onFailure tEnd,
        .failedThrough, 1) := by
    unfold CircuitBreaker.call
    rw [hupd, if_neg (by simp), if_neg (by simp)]
  have hsucc : ({ cb with state := .halfOpen } : CircuitBreaker).onSuccess =
      { cb with failure_count := 0, state := .closed } := by
    unfold CircuitBreaker.onSuccess
    rw [if_pos rfl]
  have hfailcond :
      ((({ cb with state := .halfOpen } : CircuitBreaker).failure_count + 1 :
        Nat) : Int) ≥
        ({ cb with state := .halfOpen } : CircuitBreaker).failure_threshold
      := by
    show ((cb.failure_count + 1 : Nat) : Int) ≥ cb.failure_threshold
    push_cast
    omega
  have hfail : ({ cb with state := .halfOpen } :
      CircuitBreaker).onFailure tEnd =
      { cb with failure_count := cb.failure_count + 1
                last_failure_time := some tEnd
                state := .opened } := by
    unfold CircuitBreaker.onFailure
    rw [if_pos hfailcond]
  refine ⟨?_, ?_, ?_⟩
  · unfold CircuitBreaker.readState
    rw [hupd]
  · rw [hcallT, hsucc]
    exact ⟨rfl, rfl⟩
  · rw [hcallF, hfail]
    exact ⟨rfl, rfl⟩

/-- Freshly constructed breaker for the C4 witness. -/
def cbFresh : CircuitBreaker :=
  { failure_threshold := 3
    timeout := 30
    reset_timeout := 60
    name := "cb_tbo"
    failure_count := 0
    last_failure_time := none
    state := .closed }

/-- Three consecutive failed calls, at times 1, 2 and 3. -/
def threeFailures : List CBEvent :=
  [.callEv 1 1 false, .callEv 2 2 false, .callEv 3 3 false]

/-- Witness for C4: after three failures (threshold 3) the breaker is Open
with last failure at t=3; at t=63 the reset window of 60 has elapsed. -/
theorem claim_C4_witness :
    ((cbFresh.run threeFailures).readState 63).2 = .halfOpen ∧
    (((cbFresh.run threeFailures).call 63 64 true).1.state = .closed ∧
      ((cbFresh.run threeFailures).call 63 64 true).1.failure_count = 0) ∧
    (((cbFresh.run threeFailures).call 63 64 false).1.state = .opened ∧
      ((cbFresh.run threeFailures).call 63 64 false).1.last_failure_time
        = some 64) :=
  claim_C4_halfopen_trial 3 30 60 "cb_tbo" cbFresh (by rfl) threeFailures
    (by
      intro e he
      simp only [threeFailures, List.mem_cons, List.not_mem_nil,
        or_false] at he
      rcases he with h | h | h <;> subst h <;>
        exact ⟨by norm_num, by norm_num⟩)
    (cbFresh.run threeFailures) rfl (by decide) 63 64
    (by norm_num)
    (by
      intro t ht
      have hsome : some (3 : Rat) = some t := by
        rw [← ht]; rfl
      rw [← Option.some_inj.mp hsome]
      show (60 : Rat) ≤ 63 - 3
      norm_num)

/-- C8: constructing a circuit breaker with a non-positive
failure_threshold, call timeout or reset_timeout raises a validation
error, whatever the name; construction with the default name succeeds when
all three parameters are positive. -/
theorem claim_C8_init_validation (th : Int) (tmo rt : Rat) :
    ((th ≤ 0 ∨ tmo ≤ 0 ∨ rt ≤ 0) →
      ∀ nm : String, ∃ msg, CircuitBreaker.init th tmo rt nm = .error msg) ∧
    (0 < th → 0 < tmo → 0 < rt →
      ∃ cb, CircuitBreaker.init th tmo rt "circuit_breaker" = .ok cb ∧
        cb.failure_threshold = th ∧ cb.timeout = tmo ∧
        cb.reset_timeout = rt ∧ cb.failure_count = 0 ∧
        cb.state = .closed) := by
  constructor
  · rintro (h | h | h) nm
    · exact ⟨_, by unfold CircuitBreaker.init; rw [if_pos h]⟩
    · by_cases h1 : th ≤ 0
      · exact ⟨_, by unfold CircuitBreaker.init; rw [if_pos h1]⟩
      · exact ⟨_, by unfold CircuitBreaker.init; rw [if_neg h1, if_pos h]⟩
    · by_cases h1 : th ≤ 0
      · exact ⟨_, by unfold CircuitBreaker.init; rw [if_pos h1]⟩
      · by_cases h2 : tmo ≤ 0
        · exact ⟨_, by unfold CircuitBreaker.init; rw [if_neg h1, if_pos h2]⟩
        · exact ⟨_, by
            unfold CircuitBreaker.init
            rw [if_neg h1, if_neg h2, if_pos h]⟩
  · intro h1 h2 h3
    refine ⟨{ failure_threshold := th, timeout := tmo, reset_timeout := rt,
              name := pyStrip "circuit_breaker", failure_count := 0,
              last_failure_time := none, state := .closed },
      ?_, rfl, rfl, rfl, rfl, rfl⟩
    unfold CircuitBreaker.init
    rw [if_neg (not_le.mpr h1), if_neg (not_le.mpr h2),
      if_neg (not_le.mpr h3), if_neg (by decide)]

/-- Witness for C8: threshold 0 fails construction; parameters (3, 30, 60)
succeed. -/
theorem claim_C8_witness :
    (∃ msg, CircuitBreaker.init 0 30 60 "cb_x" = .error msg) ∧
    (∃ cb, CircuitBreaker.init 3 30 60 "circuit_breaker" = .ok cb ∧
      cb.failure_threshold = 3 ∧ cb.timeout = 30 ∧
      cb.reset_timeout = 60 ∧ cb.failure_count = 0 ∧
      cb.state = .closed) :=
  ⟨(claim_C8_init_validation 0 30 60).1 (Or.inl (by norm_num)) "cb_x",
   (claim_C8_init_validation 3 30 60).2 (by norm_num) (by norm_num)
     (by norm_num)⟩

/-! ## search_single (app/services/universal_provider.py lines 149-300)

The retry loop is embedded as a pure function over an oracle
`outcomes : Nat -> AttemptOutcome` assigning to each 0-based attempt index
what the body of the loop iteration produced: a successful search with its
normalized and filtered offers, a CircuitBreakerOpenError raised by the
breaker-gated call, an asyncio.TimeoutError, or any other exception. The
search criteria, the adapter, the breaker dynamics, the meal-type and
room-category filtering and the meal-plan normalization are abstracted into
this oracle: the claims settled here are about the control flow of the
loop. Wall-clock fields (processing_time_ms) are elided; offer payloads are
opaque strings. -/

/-- Outcome of one iteration of the retry loop body. -/
inductive AttemptOutcome where
  | ok (offers : List String)
  | breakerOpen
  | timedOut
  | exn (msg : String)
deriving DecidableEq, Repr

/-- Result dict returned by search_single / recorded by search_all. Fields
that only some of the returned dicts carry are Options. -/
structure SRes where
  status : String
  provider : Option String
  error : Option String
  offers : List String
  offer_count : Option Nat
  attempts : Option Nat
  circuit_breaker_state : Option String
deriving DecidableEq, Repr

/-- Success dict (universal_provider.py lines 253-261). -/
def successRes (provider : String) (offers : List String)
    (attempt : Nat) (cbState : String) : SRes :=
  { status := "success"
    provider := some provider
    error := none
    offers := offers
    offer_count := some offers.length
    attempts := some (attempt + 1)
    circuit_breaker_state := some cbState }

/-- Error dict for a caught CircuitBreakerOpenError (lines 263-271). -/
def breakerOpenRes (provider : String) : SRes :=
  { status := "error"
    provider := some provider
    error := some s!"Connection protection triggered: The {provider} booking service has been automatically disabled due to repeated connection issues (circuit breaker activated)."
    offers := []
    offer_count := none
    attempts := none
    circuit_breaker_state := some "open" }

/-- Error dict for retry exhaustion by timeouts (lines 279-286). -/
def timeoutExhaustedRes (provider : String) (maxRetries : Nat)
    (cbState : String) : SRes :=
  { status := "error"
    provider := some provider
    error := some s!"Response timeout occurred: The {provider} service did not respond within the expected time limit after {maxRetries} attempts."
    offers := []
    offer_count := none
    attempts := none
    circuit_breaker_state := some cbState }

/-- Error dict for retry exhaustion by generic exceptions (lines 293-300). -/
def errorExhaustedRes (provider : String) (maxRetries : Nat)
    (cbState : String) : SRes :=
  { status := "error"
    provider := some provider
    error := some s!"Service error encountered: We experienced technical difficulties while connecting to the {provider} booking service after {maxRetries} retry attempts."
    offers := []
    offer_count := none
    attempts := none
    circuit_breaker_state := some cbState }

/-- Error dict for an unknown provider name (lines 158-163). -/
def unknownProviderRes (provider : String) : SRes :=
  { status := "error"
    provider := none
    error := some s!"The {provider} booking service is currently not available. Please try using other providers or contact support."
    offers := []
    offer_count := none
    attempts := none
    circuit_breaker_state := none }

/-- Error dict for the pre-loop breaker-open check (lines 170-178). -/
def preCheckOpenRes (provider : String) : SRes :=
  { status := "error"
    provider := some provider
    error := some s!"Service protection active: The {provider} booking service has been temporarily disabled after experiencing repeated connection failures."
    offers := []
    offer_count := none
    attempts := none
    circuit_breaker_state := some "open" }

/-- The retry loop (lines 184-300). attempt is the current 0-based loop
index, remaining the number of loop iterations left (search_single starts
the loop with attempt = 0 and remaining = maxRetries, mirroring
`for attempt in range(max_retries)`). Returns the result dict (none when
the loop exhausts without an iteration, the Python implicit None) and the
list of backoff delays slept, in order. -/
def searchLoop (provider : String) (cbState : String) (baseDelay : Rat)
    (maxRetries : Nat) (outcomes : Nat → AttemptOutcome) :
    Nat → Nat → Option SRes × List Rat
  | _, 0 => (none, [])
  | attempt, remaining + 1 =>
    match outcomes attempt with
    | .ok offers => (some (successRes provider offers attempt cbState), [])
    | .breakerOpen => (some (breakerOpenRes provider), [])
    | .timedOut =>
        if attempt < maxRetries - 1 then
          let d := baseDelay * 2 ^ attempt
          let rest := searchLoop provider cbState baseDelay maxRetries
            outcomes (attempt + 1) remaining
          (rest.1, d :: rest.2)
        else
          (some (timeoutExhaustedRes provider maxRetries cbState), [])
    | .exn _ =>
        if attempt < maxRetries - 1 then
          let d := baseDelay * 2 ^ attempt
          let rest := searchLoop provider cbState baseDelay maxRetries
            outcomes (attempt + 1) remaining
          (rest.1, d :: rest.2)
        else
          (some (errorExhaustedRes provider maxRetries cbState), [])

/-- Embeds UniversalProvider.search_single (lines 149-300). adapters is
the list of loaded adapter names; breakerState is the state the pre-loop
breaker check observes (after its lazy update), none when the provider has
no breaker. -/
def search_single (adapters : List String) (provider : String)
    (breakerState : Option CircuitState) (cbState : String)
    (baseDelay : Rat) (maxRetries : Nat)
    (outcomes : Nat → AttemptOutcome) : Option SRes × List Rat :=
  if provider ∉ adapters then
    (some (unknownProviderRes provider), [])
  else if breakerState = some .opened then
    (some (preCheckOpenRes provider), [])
  else
    searchLoop provider cbState baseDelay maxRetries outcomes 0 maxRetries

/-- Transient outcomes are the retried ones: asyncio.TimeoutError and the
generic Exception handler, not CircuitBreakerOpenError and not success. -/
def AttemptOutcome.isTransient : AttemptOutcome → Prop
  | .timedOut => True
  | .exn _ => True
  | .ok _ => False
  | .breakerOpen => False

theorem searchLoop_len (provider cbState : String) (baseDelay : Rat)
    (maxRetries : Nat) (outcomes : Nat → AttemptOutcome) :
    ∀ remaining attempt,
      (searchLoop provider cbState baseDelay maxRetries outcomes attempt
        remaining).2.length ≤ maxRetries - 1 - attempt := by
  intro remaining
  induction remaining with
  | zero => intro attempt; simp [searchLoop]
  | succ rem ih =>
      intro attempt
      unfold searchLoop
      cases houtcome : outcomes attempt with
      | ok offers => simp
      | breakerOpen => simp
      | timedOut =>
          by_cases hg : attempt < maxRetries - 1
          · have := ih (attempt + 1)
            simp only [hg, if_true, if_pos, List.length_cons]
            omega
          · simp [hg]
      | exn msg =>
          by_cases hg : attempt < maxRetries - 1
          · have := ih (attempt + 1)
            simp only [hg, if_true, if_pos, List.length_cons]
            omega
          · simp [hg]

theorem searchLoop_delay_formula (provider cbState : String)
    (baseDelay : Rat) (maxRetries : Nat) (outcomes : Nat → AttemptOutcome) :
    ∀ remaining attempt i,
      i < (searchLoop provider cbState baseDelay maxRetries outcomes attempt
        remaining).2.length →
      (searchLoop provider cbState baseDelay maxRetries outcomes attempt
        remaining).2.getD i 0 = baseDelay * 2 ^ (attempt + i) := by
  intro remaining
  induction remaining with
  | zero => intro attempt i h; simp [searchLoop] at h
  | succ rem ih =>
      intro attempt i h
      unfold searchLoop at h ⊢
      cases houtcome : outcomes attempt
      case ok offers => rw [houtcome] at h; simp at h
      case breakerOpen => rw [houtcome] at h; simp at h
      case timedOut =>
          rw [houtcome] at h
          by_cases hg : attempt < maxRetries - 1
          · simp only [hg, if_true, if_pos] at h ⊢
            cases i with
            | zero => simp
            | succ j =>
                simp only [List.length_cons, Nat.succ_lt_succ_iff] at h
                have := ih (attempt + 1) j h
                simp only [List.getD_cons_succ, this]
                ring_nf
          · simp only [hg, if_false] at h
            simp at h
      case exn msg =>
          rw [houtcome] at h
          by_cases hg : attempt < maxRetries - 1
          · simp only [hg, if_true, if_pos] at h ⊢
            cases i with
            | zero => simp
            | succ j =>
                simp only [List.length_cons, Nat.succ_lt_succ_iff] at h
                have := ih (attempt + 1) j h
                simp only [List.getD_cons_succ, this]
                ring_nf
          · simp only [hg, if_false] at h
            simp at h

theorem searchLoop_status (provider cbState : String) (baseDelay : Rat)
    (maxRetries : Nat) (outcomes : Nat → AttemptOutcome) :
    ∀ remaining attempt, attempt + remaining = maxRetries → 1 ≤ remaining →
      ∃ r, (searchLoop provider cbState baseDelay maxRetries outcomes
        attempt remaining).1 = some r ∧
        (r.status = "success" ∨ r.status = "error") := by
  intro remaining
  induction remaining with
  | zero => intro attempt _ h; omega
  | succ rem ih =>
      intro attempt halign _
      unfold searchLoop
      cases houtcome : outcomes attempt with
      | ok offers => exact ⟨_, rfl, Or.inl rfl⟩
      | breakerOpen => exact ⟨_, rfl, Or.inr rfl⟩
      | timedOut =>
          by_cases hg : attempt < maxRetries - 1
          · have hrem : 1 ≤ rem := by omega
            rcases ih (attempt + 1) (by omega) hrem with ⟨r, hr, hst⟩
            refine ⟨r, ?_, hst⟩
            simp only [hg, if_true, if_pos]
            exact hr
          · exact ⟨timeoutExhaustedRes provider maxRetries cbState,
              by simp [hg], Or.inr rfl⟩
      | exn msg =>
          by_cases hg : attempt < maxRetries - 1
          · have hrem : 1 ≤ rem := by omega
            rcases ih (attempt + 1) (by omega) hrem with ⟨r, hr, hst⟩
            refine ⟨r, ?_, hst⟩
            simp only [hg, if_true, if_pos]
            exact hr
          · exact ⟨errorExhaustedRes provider maxRetries cbState,
              by simp [hg], Or.inr rfl⟩

theorem searchLoop_breaker_immediate (provider cbState : String)
    (baseDelay : Rat) (maxRetries : Nat) (outcomes : Nat → AttemptOutcome) :
    ∀ remaining attempt a, attempt + remaining = maxRetries →
      attempt ≤ a → a < maxRetries →
      (∀ i, attempt ≤ i → i < a → (outcomes i).isTransient) →
      outcomes a = .breakerOpen →
      (searchLoop provider cbState baseDelay maxRetries outcomes attempt
        remaining).1 = some (breakerOpenRes provider) ∧
      (searchLoop provider cbState baseDelay maxRetries outcomes attempt
        remaining).2.length = a - attempt := by
  intro remaining
  induction remaining with
  | zero => intro attempt a halign hle hlt _ _; omega
  | succ rem ih =>
      intro attempt a halign hle hlt htrans hbrk
      by_cases heq : attempt = a
      · subst heq
        unfold searchLoop
        rw [hbrk]
        exact ⟨rfl, by simp⟩
      · have hlt2 : attempt < a := lt_of_le_of_ne hle heq
        have hg : attempt < maxRetries - 1 := by omega
        have htr := htrans attempt le_rfl hlt2
        have step := ih (attempt + 1) a (by omega) (by omega) hlt
          (fun i h1 h2 => htrans i (by omega) h2) hbrk
        unfold searchLoop
        cases houtcome : outcomes attempt with
        | ok offers =>
            rw [houtcome] at htr
            simp [AttemptOutcome.isTransient] at htr
        | breakerOpen =>
            rw [houtcome] at htr
            simp [AttemptOutcome.isTransient] at htr
        | timedOut =>
            simp only [hg, if_true, if_pos, List.length_cons]
            exact ⟨step.1, by omega⟩
        | exn msg =>
            simp only [hg, if_true, if_pos, List.length_cons]
            exact ⟨step.1, by omega⟩

/-- C5: in search_single, retries happen only on transient failures (a
timeout or a generic error; a breaker-open rejection returns immediately
with no further attempt and no further delay); the number of retries never
exceeds max_retries (it is at most max_retries - 1); and the backoff delay
before retry k (1-based, at 0-based index i = k - 1) equals
base_delay * 2 ^ (k - 1), a strictly increasing sequence. -/
theorem claim_C5_retry_discipline (adapters : List String)
    (provider : String) (breakerState : Option CircuitState)
    (cbState : String) (baseDelay : Rat) (maxRetries : Nat)
    (outcomes : Nat → AttemptOutcome)
    (hmem : provider ∈ adapters) (hbs : breakerState ≠ some .opened)
    (hbd : 0 < baseDelay) :
    (search_single adapters provider breakerState cbState baseDelay
      maxRetries outcomes).2.length ≤ maxRetries - 1 ∧
    (∀ i, i < (search_single adapters provider breakerState cbState
        baseDelay maxRetries outcomes).2.length →
      (search_single adapters provider breakerState cbState baseDelay
        maxRetries outcomes).2.getD i 0 = baseDelay * 2 ^ i) ∧
    (∀ i, i + 1 < (search_single adapters provider breakerState cbState
        baseDelay maxRetries outcomes).2.length →
      (search_single adapters provider breakerState cbState baseDelay
        maxRetries outcomes).2.getD i 0 <
        (search_single adapters provider breakerState cbState baseDelay
          maxRetries outcomes).2.getD (i + 1) 0) ∧
    (∀ a, a < maxRetries →
      (∀ i, i < a → (outcomes i).isTransient) →
      outcomes a = .breakerOpen →
      (search_single adapters provider breakerState cbState baseDelay
        maxRetries outcomes).1 = some (breakerOpenRes provider) ∧
      (search_single adapters provider breakerState cbState baseDelay
        maxRetries outcomes).2.length = a) := by
  have heq : search_single adapters provider breakerState cbState baseDelay
      maxRetries outcomes =
      searchLoop provider cbState baseDelay maxRetries outcomes 0
        maxRetries := by
    unfold search_single
    rw [if_neg (not_not_intro hmem), if_neg hbs]
  rw [heq]
  refine ⟨?_, ?_, ?_, ?_⟩
  · simpa using searchLoop_len provider cbState baseDelay maxRetries
      outcomes maxRetries 0
  · intro i hi
    simpa using searchLoop_delay_formula provider cbState baseDelay
      maxRetries outcomes maxRetries 0 i hi
  · intro i hi
    have h1 := searchLoop_delay_formula provider cbState baseDelay
      maxRetries outcomes maxRetries 0 i (by omega)
    have h2 := searchLoop_delay_formula provider cbState baseDelay
      maxRetries outcomes maxRetries 0 (i + 1) hi
    rw [h1, h2]
    have hp : (0 : Rat) < 2 ^ i := pow_pos (by norm_num) i
    have hlt : (2 : Rat) ^ (0 + i) < 2 ^ (0 + (i + 1)) := by
      simp only [Nat.zero_add]
      rw [pow_succ]
      nlinarith
    exact mul_lt_mul_of_pos_left hlt hbd
  · intro a ha htrans hbrk
    have := searchLoop_breaker_immediate provider cbState baseDelay
      maxRetries outcomes maxRetries 0 a (Nat.zero_add maxRetries) (Nat.zero_le a) ha
      (fun i _ h2 => htrans i h2) hbrk
    simpa using this

/-- Concrete attempt oracle for the C5 witness: attempt 0 times out,
attempt 1 hits an open breaker. -/
def oracleTimeoutThenOpen : Nat → AttemptOutcome :=
  fun n => if n = 0 then .timedOut else .breakerOpen

/-- Witness for C5 at a concrete input: one transient failure, then a
breaker-open rejection at attempt index 1, with maxRetries = 3 and
baseDelay = 1: exactly one delay is slept and the loop returns the
circuit-open error immediately. -/
theorem claim_C5_witness :
    (search_single ["rate_hawk"] "rate_hawk" (some .closed) "closed" 1 3
      oracleTimeoutThenOpen).2.length ≤ 2 ∧
    (search_single ["rate_hawk"] "rate_hawk" (some .closed) "closed" 1 3
      oracleTimeoutThenOpen).1 = some (breakerOpenRes "rate_hawk") ∧
    (search_single ["rate_hawk"] "rate_hawk" (some .closed) "closed" 1 3
      oracleTimeoutThenOpen).2.length = 1 := by
  have h := claim_C5_retry_discipline ["rate_hawk"] "rate_hawk"
    (some .closed) "closed" 1 3 oracleTimeoutThenOpen
    (by simp) (by simp) (by norm_num)
  have hb := h.2.2.2 1 (by norm_num)
    (by
      intro i hi
      have : i = 0 := by omega
      subst this
      simp [oracleTimeoutThenOpen, AttemptOutcome.isTransient])
    (by simp [oracleTimeoutThenOpen])
  exact ⟨h.1, hb.1, hb.2⟩

/-- C10: for every provider name (unknown ones included) and every
behaviour of the attempt bodies, search_single returns a result dict (no
exception propagates: every raise inside the loop body is absorbed into an
outcome, and the embedding is a total function) whose status is either
"success" or "error", and never "timeout". The hypothesis
1 ≤ maxRetries reflects config.MAX_RETRIES = 3 (with max_retries = 0 the
Python loop body would never run and the function would fall off the end
returning None). -/
theorem claim_C10_single_status_dichotomy (adapters : List String)
    (provider : String) (breakerState : Option CircuitState)
    (cbState : String) (baseDelay : Rat) (maxRetries : Nat)
    (outcomes : Nat → AttemptOutcome) (hmr : 1 ≤ maxRetries) :
    ∃ r, (search_single adapters provider breakerState cbState baseDelay
        maxRetries outcomes).1 = some r ∧
      (r.status = "success" ∨ r.status = "error") ∧
      r.status ≠ "timeout" := by
  unfold search_single
  by_cases hmem : provider ∉ adapters
  · rw [if_pos hmem]
    exact ⟨unknownProviderRes provider, rfl, Or.inr rfl, by
      simp [unknownProviderRes]⟩
  · rw [if_neg hmem]
    by_cases hbs : breakerState = some CircuitState.opened
    · rw [if_pos hbs]
      exact ⟨preCheckOpenRes provider, rfl, Or.inr rfl, by
        simp [preCheckOpenRes]⟩
    · rw [if_neg hbs]
      rcases searchLoop_status provider cbState baseDelay maxRetries
        outcomes maxRetries 0 (Nat.zero_add maxRetries) hmr with ⟨r, hr, hst⟩
      refine ⟨r, hr, hst, ?_⟩
      rcases hst with h | h <;> rw [h] <;> simp

/-- Witness for C10 at a concrete input: an unknown provider name against
an empty adapter map still yields an error dict, not an exception and not
a timeout status. -/
theorem claim_C10_witness :
    ∃ r, (search_single [] "nosuch" none "disabled" 1 3
        (fun _ => .timedOut)).1 = some r ∧
      (r.status = "success" ∨ r.status = "error") ∧
      r.status ≠ "timeout" :=
  claim_C10_single_status_dichotomy [] "nosuch" none "disabled" 1 3
    (fun _ => .timedOut) (by norm_num)

/-! ## search_all (app/services/universal_provider.py lines 302-486)

The fan-out phase (task creation and the asyncio wait) is abstracted by an
oracle describing how the gather finished; the reductions of the three
except-paths are embedded directly. Python dicts keyed by provider name
are association lists with dict semantics via dictInsert. -/

/-- Python dict insertion: update in place when the key already exists
(keeping its position), else append. -/
def dictInsert (m : List (String × α)) (k : String) (v : α) :
    List (String × α) :=
  if m.any (fun p => p.1 == k) then
    m.map (fun p => if p.1 == k then (k, v) else p)
  else m ++ [(k, v)]

/-- Python dict lookup: value of the entry with the given key. -/
def alookup (m : List (String × α)) (k : String) : Option α :=
  (m.find? (fun p => p.1 == k)).map Prod.snd

/-- Embeds the provider-subset resolution of search_all (lines 333-353):
an explicit list is filtered to the known adapters; an empty or
unknown-only list falls back to all available adapters. -/
def resolve_providers_to_search (adapters selected : List String) :
    List String :=
  if selected ≠ [] then
    let valid := selected.filter (fun p => adapters.contains p)
    if valid = [] then adapters else valid
  else adapters

/-- Embeds the provider_tasks dict construction (lines 357-364): one
asyncio task per element of providers_to_search, keyed by provider name; a
duplicate name overwrites the previous entry (that earlier task is
orphaned). A task is identified by its creation index into
providers_to_search. -/
def provider_tasks (pts : List String) : List (String × Nat) :=
  pts.enum.foldl (fun m p => dictInsert m p.2 p.1) []

/-- Result of one task as seen through asyncio.gather with
return_exceptions=True: the search_single result dict, or the exception
the task raised. -/
inductive GatherItem where
  | res (r : SRes)
  | exnIt (msg : String)

/-- State of one task at the moment the fan-out deadline fires. -/
inductive TaskState where
  | doneRes (r : SRes)
  | doneExn (msg : String)
  | doneCancelled
  | stillRunning

/-- Error entry recorded for a unit that finished by raising: built at
lines 386-391 (completed path, str(result)) and lines 423-427 (deadline
path, str(e)); identical up to the elided processing_time_ms field. -/
def exnErrorRes (msg : String) : SRes :=
  { status := "error"
    provider := none
    error := some msg
    offers := []
    offer_count := none
    attempts := none
    circuit_breaker_state := none }

/-- Timeout entry for a task observed done but cancelled (lines
413-420). -/
def cancelledDuringTimeoutRes : SRes :=
  { status := "timeout"
    provider := none
    error := some "Provider search was cancelled during timeout handling"
    offers := []
    offer_count := none
    attempts := none
    circuit_breaker_state := none }

/-- Timeout entry for a task still running at the deadline (lines
429-438). -/
def stillRunningTimeoutRes (searchTimeout : Rat) : SRes :=
  { status := "timeout"
    provider := none
    error := some s!"Provider search timed out after {searchTimeout}s"
    offers := []
    offer_count := none
    attempts := none
    circuit_breaker_state := none }

/-- Error entry of the catch-all handler (lines 447-456). -/
def unexpectedErrorRes (msg : String) : SRes :=
  { status := "error"
    provider := none
    error := some s!"Unexpected error: {msg}"
    offers := []
    offer_count := none
    attempts := none
    circuit_breaker_state := none }

/-- One step of the completed-gather reduction (lines 381-395): result i
of the gather is attributed to providers_to_search[i] (the misalignment
under duplicate names is deliberate embedding of the source). The in-range
access pts[i] always succeeds because the gather returns at most one
result per dict entry and the dict has at most pts.length entries. -/
def collect_completed_step (pts : List String) :
    List (String × SRes) × List String → Nat × GatherItem →
    List (String × SRes) × List String
  | (results, offers), (i, .exnIt msg) =>
      (dictInsert results (pts.getD i "") (exnErrorRes msg), offers)
  | (results, offers), (i, .res r) =>
      (dictInsert results (pts.getD i "") r,
        if r.status == "success" then offers ++ r.offers else offers)

/-- Embeds the completed-gather reduction (lines 373-395). taskRes i is
the outcome of the task created at index i of providers_to_search; the
gather collects the tasks in provider_tasks dict order. -/
def collect_completed (pts : List String) (taskRes : Nat → GatherItem) :
    List (String × SRes) × List String :=
  (((provider_tasks pts).map (fun p => taskRes p.2)).enum).foldl
    (collect_completed_step pts) ([], [])

/-- Entry recorded in the deadline path for one task, and whether
task.cancel() is invoked on it (lines 404-439): a finished task keeps its
result (or is recorded as an error if it raised, as a timeout if it was
cancelled); a task still running is cancelled and recorded as a
timeout. -/
def timeoutEntry (searchTimeout : Rat) : TaskState → SRes × Bool
  | .doneRes r => (r, false)
  | .doneExn msg => (exnErrorRes msg, false)
  | .doneCancelled => (cancelledDuringTimeoutRes, false)
  | .stillRunning => (stillRunningTimeoutRes searchTimeout, true)

/-- One step of the deadline-path reduction over provider_tasks.items().
The accumulator is (provider_results, all_offers, cancelled names). -/
def timeoutStep (searchTimeout : Rat) (taskState : String → TaskState)
    (acc : List (String × SRes) × List String × List String)
    (p : String × Nat) :
    List (String × SRes) × List String × List String :=
  let e := timeoutEntry searchTimeout (taskState p.1)
  (dictInsert acc.1 p.1 e.1,
   (match taskState p.1 with
    | .doneRes r =>
        if r.status == "success" then acc.2.1 ++ r.offers else acc.2.1
    | _ => acc.2.1),
   if e.2 then acc.2.2 ++ [p.1] else acc.2.2)

/-- Embeds the asyncio.TimeoutError handler of search_all (lines
397-445). -/
def collect_on_timeout (pts : List String) (searchTimeout : Rat)
    (taskState : String → TaskState) :
    List (String × SRes) × List String × List String :=
  (provider_tasks pts).foldl (timeoutStep searchTimeout taskState)
    ([], [], [])

/-- Embeds the catch-all exception handler (lines 447-456): every
selected provider missing from provider_results (all of them, in this
path) gets an unexpected-error entry. -/
def fill_missing_errors (pts : List String) (msg : String) :
    List (String × SRes) :=
  pts.foldl
    (fun m name =>
      if m.any (fun p => p.1 == name) then m
      else dictInsert m name (unexpectedErrorRes msg))
    []

/-- How the guarded gather finished: every task completed inside the
deadline, the deadline fired, or some other exception reached the
catch-all handler. -/
inductive FanOutcome where
  | completedAll (taskRes : Nat → GatherItem)
  | deadlineHit (taskState : String → TaskState)
  | gatherFailed (msg : String)

/-- Summary block of the aggregated result (lines 458-486). The early
empty-criteria return (lines 323-331) carries only total_offers,
successful_providers and hotel_count, so the other counters are Options.
Wall-clock processing_time_ms is elided. -/
structure Summary where
  total_offers : Nat
  successful_providers : Nat
  error_providers : Option Nat
  timeout_providers : Option Nat
  hotel_count : Nat
  hotels_searched : Option (List String)
  search_timeout_used : Option Rat
deriving DecidableEq, Repr

/-- Aggregated result of search_all: the per-provider map and the
summary. -/
structure AggregatedResult where
  providers : List (String × SRes)
  summary : Summary
deriving DecidableEq, Repr

/-- Embeds UniversalProvider.search_all (lines 302-486). hotelNames and
selected are criteria["hotel_names"] and criteria["providers"] (absent
modelled as the empty list, matching the .get defaults); searchTimeout is
criteria.get("search_timeout", 10.0). The second component of the result
is the list of provider names whose task was cancelled at the deadline.
The embedding is a total function: no exception escapes to the caller. -/
def search_all (adapters hotelNames selected : List String)
    (searchTimeout : Rat) (fo : FanOutcome) :
    AggregatedResult × List String :=
  if hotelNames = [] then
    ({ providers := []
       summary := { total_offers := 0
                    successful_providers := 0
                    error_providers := none
                    timeout_providers := none
                    hotel_count := 0
                    hotels_searched := none
                    search_timeout_used := none } }, [])
  else
    let pts := resolve_providers_to_search adapters selected
    let collected :=
      match fo with
      | .completedAll taskRes =>
          ((collect_completed pts taskRes).1,
           (collect_completed pts taskRes).2, ([] : List String))
      | .deadlineHit taskState =>
          collect_on_timeout pts searchTimeout taskState
      | .gatherFailed msg => (fill_missing_errors pts msg, [], [])
    ({ providers := collected.1
       summary := { total_offers := collected.2.1.length
                    successful_providers :=
                      (collected.1.filter
                        (fun p => p.2.status == "success")).length
                    error_providers :=
                      some (collected.1.filter
                        (fun p => p.2.status == "error")).length
                    timeout_providers :=
                      some (collected.1.filter
                        (fun p => p.2.status == "timeout")).length
                    hotel_count := hotelNames.length
                    hotels_searched := some hotelNames
                    search_timeout_used := some searchTimeout } },
     collected.2.2)

/-- C9: a search_all call whose criteria carry no hotel names returns
immediately: empty providers map, total_offers 0, successful_providers 0,
hotel_count 0, nothing cancelled — and independently of the fan-out
behaviour (no supplier task is created or consulted), whatever suppliers
were explicitly selected. -/
theorem claim_C9_no_hotels_early_return (adapters selected : List String)
    (searchTimeout : Rat) (fo fo' : FanOutcome) :
    search_all adapters [] selected searchTimeout fo =
      ({ providers := []
         summary := { total_offers := 0
                      successful_providers := 0
                      error_providers := none
                      timeout_providers := none
                      hotel_count := 0
                      hotels_searched := none
                      search_timeout_used := none } }, []) ∧
    search_all adapters [] selected searchTimeout fo =
      search_all adapters [] selected searchTimeout fo' :=
  ⟨rfl, rfl⟩

/-- C6: the supplier subset of a search is resolved as: an empty explicit
list selects all loaded suppliers; a non-empty list whose names are all
unknown falls back to all loaded suppliers; otherwise exactly the known
names of the explicit list are searched. -/
theorem claim_C6_subset_resolution (adapters selected : List String) :
    (selected = [] →
      resolve_providers_to_search adapters selected = adapters) ∧
    (selected ≠ [] →
      selected.filter (fun p => adapters.contains p) = [] →
      resolve_providers_to_search adapters selected = adapters) ∧
    (selected.filter (fun p => adapters.contains p) ≠ [] →
      resolve_providers_to_search adapters selected =
        selected.filter (fun p => adapters.contains p)) := by
  refine ⟨?_, ?_, ?_⟩
  · intro h
    subst h
    rfl
  · intro h1 h2
    unfold resolve_providers_to_search
    rw [if_pos h1, if_pos h2]
  · intro h
    have h1 : selected ≠ [] := by
      intro he
      subst he
      simp at h
    unfold resolve_providers_to_search
    rw [if_pos h1, if_neg h]

/-- Witness for C6 at concrete inputs: empty list selects all; an
unknown-only list falls back to all; a mixed list selects exactly its
known names. -/
theorem claim_C6_witness :
    resolve_providers_to_search ["rate_hawk", "tbo"] [] =
      ["rate_hawk", "tbo"] ∧
    resolve_providers_to_search ["rate_hawk", "tbo"] ["nosuch"] =
      ["rate_hawk", "tbo"] ∧
    resolve_providers_to_search ["rate_hawk", "tbo"] ["tbo", "nosuch"] =
      ["tbo"] :=
  ⟨(claim_C6_subset_resolution ["rate_hawk", "tbo"] []).1 rfl,
   (claim_C6_subset_resolution ["rate_hawk", "tbo"] ["nosuch"]).2.1
     (by decide) (by decide),
   ((claim_C6_subset_resolution ["rate_hawk", "tbo"]
       ["tbo", "nosuch"]).2.2 (by decide)).trans (by decide)⟩

/-- Success dicts of the two distinct units in the C1 failing input. -/
def resTboUnit : SRes := successRes "tbo" ["tbo_offer"] 0 "closed"

/-- Success dict returned by the ratehawk unit in the C1 failing input. -/
def resRatehawkUnit : SRes := successRes "ratehawk" ["rh_offer"] 0 "closed"

/-- Gather outcomes for the C1 failing input: the surviving tbo task is
index 1 of the duplicated list, the ratehawk task index 2; index 0 is the
orphaned first tbo task, never awaited by the gather. -/
def dupTaskRes : Nat → GatherItem
  | 1 => .res resTboUnit
  | 2 => .res resRatehawkUnit
  | _ => .res resTboUnit

/-- C1 exhibit (code bug): with a duplicate name in the explicit provider
list, the completed-gather path attributes results by position into the
duplicated providers_to_search while the gather returns one result per
distinct dict key: ratehawk is in the resolved subset and its unit
succeeded, yet the returned providers map has a single key "tbo", missing
"ratehawk", and the entry under "tbo" is the ratehawk unit result. The
deadline path (see the C2 theorem) keys the same reduction by the dict
itself, which is why this is a slip rather than a policy. -/
theorem claim_C1_duplicate_selection_mislabels :
    resolve_providers_to_search ["tbo", "ratehawk"]
      ["tbo", "tbo", "ratehawk"] = ["tbo", "tbo", "ratehawk"] ∧
    "ratehawk" ∈ resolve_providers_to_search ["tbo", "ratehawk"]
      ["tbo", "tbo", "ratehawk"] ∧
    (search_all ["tbo", "ratehawk"] ["H"] ["tbo", "tbo", "ratehawk"] 10
      (.completedAll dupTaskRes)).1.providers.map Prod.fst = ["tbo"] ∧
    alookup (search_all ["tbo", "ratehawk"] ["H"]
      ["tbo", "tbo", "ratehawk"] 10
      (.completedAll dupTaskRes)).1.providers "ratehawk" = none ∧
    alookup (search_all ["tbo", "ratehawk"] ["H"]
      ["tbo", "tbo", "ratehawk"] 10
      (.completedAll dupTaskRes)).1.providers "tbo" =
      some resRatehawkUnit := by
  refine ⟨rfl, by decide, rfl, rfl, rfl⟩

theorem dictInsert_fresh {α : Type} (m : List (String × α)) (k : String)
    (v : α) (h : ∀ p ∈ m, p.1 ≠ k) : dictInsert m k v = m ++ [(k, v)] := by
  have hno : ¬(m.any (fun p => p.1 == k) = true) := by
    simp only [List.any_eq_true, beq_iff_eq]
    rintro ⟨p, hp, he⟩
    exact h p hp he
  unfold dictInsert
  rw [if_neg hno]

theorem foldl_taskInsert_fresh :
    ∀ (l : List (Nat × String)) (m : List (String × Nat)),
      (∀ q ∈ l, ∀ p ∈ m, p.1 ≠ q.2) → (l.map Prod.snd).Nodup →
      l.foldl (fun m p => dictInsert m p.2 p.1) m =
        m ++ l.map (fun p => (p.2, p.1)) := by
  intro l
  induction l with
  | nil => intro m _ _; simp
  | cons q rest ih =>
      intro m hfresh hnd
      rw [List.foldl_cons,
        dictInsert_fresh m q.2 q.1
          (fun p hp => hfresh q (List.mem_cons_self q rest) p hp)]
      rw [List.map_cons] at hnd
      rw [ih (m ++ [(q.2, q.1)]) ?hfr (List.Nodup.of_cons hnd)]
      · simp
      case hfr =>
        intro q' hq' p hp
        rcases List.mem_append.mp hp with hl | hr
        · exact hfresh q' (List.mem_cons_of_mem q hq') p hl
        · have : p = (q.2, q.1) := by simpa using hr
          subst this
          have hnomem := (List.nodup_cons.mp hnd).1
          intro hc
          have hc' : q.2 = q'.2 := hc
          exact hnomem (by rw [hc']; exact List.mem_map_of_mem Prod.snd hq')

/-- Under distinct provider names, the task dict lists the names in order,
each mapped to its own creation index. -/
theorem provider_tasks_eq (pts : List String) (h : pts.Nodup) :
    provider_tasks pts = pts.enum.map (fun p => (p.2, p.1)) := by
  unfold provider_tasks
  rw [foldl_taskInsert_fresh pts.enum [] (by simp) (by simpa using h)]
  simp

theorem provider_tasks_keys (pts : List String) (h : pts.Nodup) :
    (provider_tasks pts).map Prod.fst = pts := by
  rw [provider_tasks_eq pts h, List.map_map]
  show pts.enum.map (fun p => p.2) = pts
  simp

theorem timeoutStep_snd (st : Rat) (ts : String → TaskState)
    (acc : List (String × SRes) × List String × List String)
    (q : String × Nat) :
    (timeoutStep st ts acc q).2.2 =
      (if (timeoutEntry st (ts q.1)).2 then acc.2.2 ++ [q.1]
       else acc.2.2) := rfl

theorem foldl_timeout_cancelled (st : Rat) (ts : String → TaskState) :
    ∀ (tasks : List (String × Nat))
      (acc : List (String × SRes) × List String × List String),
      (tasks.foldl (timeoutStep st ts) acc).2.2 =
        acc.2.2 ++ (tasks.filter
          (fun q => (timeoutEntry st (ts q.1)).2)).map Prod.fst := by
  intro tasks
  induction tasks with
  | nil => intro acc; simp
  | cons q rest ih =>
      intro acc
      rw [List.foldl_cons, ih, timeoutStep_snd]
      by_cases hq : (timeoutEntry st (ts q.1)).2 = true
      · rw [if_pos hq, List.filter_cons_of_pos (by simpa using hq)]
        simp
      · rw [if_neg hq, List.filter_cons_of_neg (by simpa using hq)]

theorem timeoutStep_fst (st : Rat) (ts : String → TaskState)
    (acc : List (String × SRes) × List String × List String)
    (q : String × Nat) :
    (timeoutStep st ts acc q).1 =
      dictInsert acc.1 q.1 (timeoutEntry st (ts q.1)).1 := rfl

theorem foldl_timeout_results (st : Rat) (ts : String → TaskState) :
    ∀ (tasks : List (String × Nat))
      (acc : List (String × SRes) × List String × List String),
      (∀ q ∈ tasks, ∀ p ∈ acc.1, p.1 ≠ q.1) →
      (tasks.map Prod.fst).Nodup →
      (tasks.foldl (timeoutStep st ts) acc).1 =
        acc.1 ++ tasks.map
          (fun q => (q.1, (timeoutEntry st (ts q.1)).1)) := by
  intro tasks
  induction tasks with
  | nil => intro acc _ _; simp
  | cons q rest ih =>
      intro acc hfresh hnd
      rw [List.map_cons] at hnd
      rw [List.foldl_cons,
        ih (timeoutStep st ts acc q) ?hfr (List.Nodup.of_cons hnd),
        timeoutStep_fst,
        dictInsert_fresh acc.1 q.1 _
          (fun p hp => hfresh q (List.mem_cons_self q rest) p hp)]
      · simp
      case hfr =>
        intro q' hq' p hp
        rw [timeoutStep_fst,
          dictInsert_fresh acc.1 q.1 _
            (fun p hp => hfresh q (List.mem_cons_self q rest) p hp)] at hp
        rcases List.mem_append.mp hp with hl | hr
        · exact hfresh q' (List.mem_cons_of_mem q hq') p hl
        · have : p = (q.1, (timeoutEntry st (ts q.1)).1) := by simpa using hr
          subst this
          have := (List.nodup_cons.mp hnd).1
          intro hc
          exact this (hc ▸ List.mem_map_of_mem Prod.fst hq')

theorem alookup_mapped (f : String → SRes) :
    ∀ (tasks : List (String × Nat)) (name : String),
      name ∈ tasks.map Prod.fst →
      alookup (tasks.map (fun q => (q.1, f q.1))) name = some (f name) := by
  intro tasks
  induction tasks with
  | nil => intro name h; simp at h
  | cons q rest ih =>
      intro name h
      by_cases he : q.1 = name
      · subst he
        simp [alookup]
      · have hmem : name ∈ rest.map Prod.fst := by
          rw [List.map_cons] at h
          rcases List.mem_cons.mp h with h1 | h1
          · exact absurd h1.symm he
          · exact h1
        have := ih name hmem
        unfold alookup at this ⊢
        rw [List.map_cons, List.find?_cons_of_neg _ (by simpa using he)]
        exact this

/-- C2: when the fan-out deadline fires, the reduction of search_all keeps
the real outcome of every finished unit (its result dict if it returned,
an error entry carrying the exception text if it raised), records a unit
that finished cancelled as status "timeout" with its CancelledError
discarded (the recorded entry carries a fixed message, not the
exception), and cancels every still-running unit and records it with
status "timeout" — never "error". The reduction is a total function of
the observed task states: no exception escapes to the caller. -/
theorem claim_C2_deadline_partial_results
    (adapters hotelNames selected : List String) (searchTimeout : Rat)
    (taskState : String → TaskState)
    (hh : hotelNames ≠ []) (hA : adapters.Nodup) (hS : selected.Nodup) :
    (∀ name ∈ resolve_providers_to_search adapters selected,
      (∀ r, taskState name = .doneRes r →
        alookup (search_all adapters hotelNames selected searchTimeout
          (.deadlineHit taskState)).1.providers name = some r) ∧
      (∀ msg, taskState name = .doneExn msg →
        alookup (search_all adapters hotelNames selected searchTimeout
          (.deadlineHit taskState)).1.providers name =
          some (exnErrorRes msg)) ∧
      (taskState name = .doneCancelled →
        alookup (search_all adapters hotelNames selected searchTimeout
          (.deadlineHit taskState)).1.providers name =
          some cancelledDuringTimeoutRes) ∧
      (taskState name = .stillRunning →
        alookup (search_all adapters hotelNames selected searchTimeout
          (.deadlineHit taskState)).1.providers name =
          some (stillRunningTimeoutRes searchTimeout) ∧
        name ∈ (search_all adapters hotelNames selected searchTimeout
          (.deadlineHit taskState)).2)) ∧
    cancelledDuringTimeoutRes.status = "timeout" ∧
    (stillRunningTimeoutRes searchTimeout).status = "timeout" := by
  have hpts : (resolve_providers_to_search adapters selected).Nodup := by
    simp only [resolve_providers_to_search]
    split
    · split
      · exact hA
      · exact hS.filter _
    · exact hA
  have hkeys := provider_tasks_keys _ hpts
  have hknodup :
      ((provider_tasks (resolve_providers_to_search adapters
        selected)).map Prod.fst).Nodup := by
    rw [hkeys]
    exact hpts
  have hres : (collect_on_timeout
      (resolve_providers_to_search adapters selected) searchTimeout
      taskState).1 =
      (provider_tasks (resolve_providers_to_search adapters
        selected)).map
        (fun q => (q.1, (timeoutEntry searchTimeout (taskState q.1)).1))
      := by
    unfold collect_on_timeout
    rw [foldl_timeout_results searchTimeout taskState _ ([], [], [])
      (by intro q _ p hp; simp at hp) hknodup]
    simp
  have hcanc : (collect_on_timeout
      (resolve_providers_to_search adapters selected) searchTimeout
      taskState).2.2 =
      ((provider_tasks (resolve_providers_to_search adapters
        selected)).filter
        (fun q => (timeoutEntry searchTimeout (taskState q.1)).2)).map
        Prod.fst := by
    unfold collect_on_timeout
    rw [foldl_timeout_cancelled]
    simp
  have hprov : (search_all adapters hotelNames selected searchTimeout
      (.deadlineHit taskState)).1.providers =
      (collect_on_timeout (resolve_providers_to_search adapters selected)
        searchTimeout taskState).1 := by
    unfold search_all
    rw [if_neg hh]
  have hcanc2 : (search_all adapters hotelNames selected searchTimeout
      (.deadlineHit taskState)).2 =
      (collect_on_timeout (resolve_providers_to_search adapters selected)
        searchTimeout taskState).2.2 := by
    unfold search_all
    rw [if_neg hh]
  refine ⟨?_, rfl, rfl⟩
  intro name hname
  have hmemkeys : name ∈ (provider_tasks
      (resolve_providers_to_search adapters selected)).map Prod.fst := by
    rw [hkeys]
    exact hname
  have hlk : alookup (search_all adapters hotelNames selected
      searchTimeout (.deadlineHit taskState)).1.providers name =
      some (timeoutEntry searchTimeout (taskState name)).1 := by
    rw [hprov, hres]
    exact alookup_mapped
      (fun n => (timeoutEntry searchTimeout (taskState n)).1) _ name
      hmemkeys
  refine ⟨?_, ?_, ?_, ?_⟩
  · intro r hr
    rw [hlk, hr]
    rfl
  · intro msg hm
    rw [hlk, hm]
    rfl
  · intro hc
    rw [hlk, hc]
    rfl
  · intro hs
    refine ⟨by rw [hlk, hs]; rfl, ?_⟩
    rw [hcanc2, hcanc]
    rcases List.mem_map.mp hmemkeys with ⟨q, hq, hqe⟩
    refine List.mem_map.mpr ⟨q, List.mem_filter.mpr ⟨hq, ?_⟩, hqe⟩
    rw [hqe, hs]
    rfl

/-- Success dict of the finished unit in the C2 witness. -/
def resAlphaUnit : SRes := successRes "alpha" ["alpha_offer"] 0 "closed"

/-- Task states at the deadline in the C2 witness: alpha finished
successfully, beta is still in flight, gamma finished cancelled. -/
def tsAtDeadline : String → TaskState := fun n =>
  if n = "alpha" then .doneRes resAlphaUnit
  else if n = "beta" then .stillRunning
  else .doneCancelled

/-- Witness for C2 at a concrete input: the finished unit keeps its
result, the in-flight unit is cancelled and recorded as timeout, the
cancelled unit is recorded as timeout, and both timeout entries carry
status "timeout". -/
theorem claim_C2_witness :
    alookup (search_all ["alpha", "beta", "gamma"] ["H"] [] 10
      (.deadlineHit tsAtDeadline)).1.providers "alpha" =
      some resAlphaUnit ∧
    alookup (search_all ["alpha", "beta", "gamma"] ["H"] [] 10
      (.deadlineHit tsAtDeadline)).1.providers "beta" =
      some (stillRunningTimeoutRes 10) ∧
    "beta" ∈ (search_all ["alpha", "beta", "gamma"] ["H"] [] 10
      (.deadlineHit tsAtDeadline)).2 ∧
    alookup (search_all ["alpha", "beta", "gamma"] ["H"] [] 10
      (.deadlineHit tsAtDeadline)).1.providers "gamma" =
      some cancelledDuringTimeoutRes ∧
    cancelledDuringTimeoutRes.status = "timeout" ∧
    (stillRunningTimeoutRes 10).status = "timeout" := by
  have h := claim_C2_deadline_partial_results ["alpha", "beta", "gamma"]
    ["H"] [] 10 tsAtDeadline (by decide) (by decide) (by decide)
  exact ⟨(h.1 "alpha" (by decide)).1 resAlphaUnit rfl,
    ((h.1 "beta" (by decide)).2.2.2 rfl).1,
    ((h.1 "beta" (by decide)).2.2.2 rfl).2,
    (h.1 "gamma" (by decide)).2.2.1 rfl,
    h.2.1, h.2.2⟩

/-! ## RateHawkProvider.normalize (app/services/providers/rate_hawk.py)

The raw response is dynamic JSON-like data; it is embedded as PyVal with
Python truthiness, dict/list/str operations, and the exact raise points of
the source: an operation that can raise returns an Option/Except, a raise
inside the per-rate try is a skipped rate, a raise outside it propagates
to the outer handler of normalize, which returns the offers collected so
far. The logging f-string at line 341 evaluates list(rate.keys()) outside
the per-rate try, so a non-dict rate aborts normalization; everything
else about logging is elided. -/

/-- Dynamic Python value (the JSON-like data normalize traverses). Dict
keys are strings, as in a decoded JSON response. -/
inductive PyVal where
  | vnone
  | vbool (b : Bool)
  | vnum (q : Rat)
  | vstr (s : String)
  | vlist (xs : List PyVal)
  | vdict (kvs : List (String × PyVal))

/-- Python truthiness. -/
def PyVal.truthy : PyVal → Bool
  | .vnone => false
  | .vbool b => b
  | .vnum q => decide (q ≠ 0)
  | .vstr s => decide (s ≠ "")
  | .vlist xs => !xs.isEmpty
  | .vdict kvs => !kvs.isEmpty

/-- dict.get(k, default) on a known dict (always succeeds). -/
def dget (kvs : List (String × PyVal)) (k : String) (dflt : PyVal) :
    PyVal :=
  ((kvs.find? (fun p => p.1 == k)).map Prod.snd).getD dflt

/-- x.get(k, default) on an arbitrary value: raises (none) when the
receiver is not a dict. -/
def PyVal.getE (v : PyVal) (k : String) (dflt : PyVal) : Option PyVal :=
  match v with
  | .vdict kvs => some (dget kvs k dflt)
  | _ => none

/-- Python iteration: a list yields its elements, a string its characters,
a dict its keys; other values raise. -/
def pyIter : PyVal → Option (List PyVal)
  | .vlist xs => some xs
  | .vstr s => some (s.toList.map (fun c => .vstr (String.mk [c])))
  | .vdict kvs => some (kvs.map (fun p => .vstr p.1))
  | _ => none

/-- Python len() (raises on values with no length). -/
def pyLen : PyVal → Option Nat
  | .vstr s => some s.length
  | .vlist xs => some xs.length
  | .vdict kvs => some kvs.length
  | _ => none

/-- Python str() as normalize applies it to hotel identifiers. The exact
rendering of composite values never matters to the claims (it only feeds
the fallback hotel name). -/
def pyStr : PyVal → String
  | .vnone => "None"
  | .vbool b => if b then "True" else "False"
  | .vnum q => toString q
  | .vstr s => s
  | .vlist _ => "<list>"
  | .vdict _ => "<dict>"

/-- Digit-string value, none when a non-digit occurs or the string is
empty. -/
def digitsVal (cs : List Char) : Option Nat :=
  if cs.isEmpty then none
  else
    cs.foldl
      (fun acc c =>
        acc.bind (fun n =>
          if c.isDigit then some (n * 10 + (c.toNat - 48)) else none))
      (some 0)

/-- Decimal parser for Python float(str): optional sign, then digits with
an optional single dot (at least one digit overall). Python accepts a few
more spellings (exponents, inf); on those this model raises where Python
would convert, which only moves an entry into the dropped class and never
affects the bounds proved here. -/
def parseDecimal (s : String) : Option Rat :=
  let cs0 := s.toList
  let signed : Rat × List Char :=
    match cs0 with
    | '-' :: rest => (-1, rest)
    | '+' :: rest => (1, rest)
    | _ => (1, cs0)
  let sign := signed.1
  let cs := signed.2
  let intPart := cs.takeWhile (fun c => c ≠ '.')
  let rest := cs.dropWhile (fun c => c ≠ '.')
  match rest with
  | [] => (digitsVal intPart).map (fun n => sign * n)
  | _ :: frac =>
      if frac.contains '.' then none
      else if intPart.isEmpty && frac.isEmpty then none
      else
        let ip := if intPart.isEmpty then some 0 else digitsVal intPart
        let fp := if frac.isEmpty then some 0 else digitsVal frac
        match ip, fp with
        | some a, some b =>
            some (sign * ((a : Rat) + (b : Rat) / (10 : Rat) ^ frac.length))
        | _, _ => none

/-- Python float(x) as applied to the payment amount: numbers and bools
convert, strings parse as decimals, anything else raises. -/
def pyFloat : PyVal → Option Rat
  | .vnum q => some q
  | .vbool b => some (if b then 1 else 0)
  | .vstr s => parseDecimal s
  | _ => none

/-- Python == restricted to the comparisons normalize performs (a value
against a string or small integer literal): numbers and bools compare
numerically (True == 1), atoms of distinct kinds are unequal, composite
values are unequal to atomic literals. -/
def pyEqAtom : PyVal → PyVal → Bool
  | .vnum a, .vnum b => decide (a = b)
  | .vnum a, .vbool b => decide (a = if b then 1 else 0)
  | .vbool a, .vnum b => decide ((if a then (1 : Rat) else 0) = b)
  | .vbool a, .vbool b => a == b
  | .vstr a, .vstr b => a == b
  | .vnone, .vnone => true
  | _, _ => false

/-- Python x > 0 on rg_ext fields: numbers and bools compare, other types
raise TypeError. -/
def pyGtZero : PyVal → Option Bool
  | .vnum q => some (decide (0 < q))
  | .vbool b => some b
  | _ => none

/-- Python x[0] on payment_types: head of a list, first character of a
string; other receivers raise (a dict would need the key 0, and the keys
here are strings). -/
def pyIndexZero : PyVal → Option PyVal
  | .vlist (x :: _) => some x
  | .vstr s =>
      match s.toList with
      | c :: _ => some (.vstr (String.mk [c]))
      | [] => none
  | _ => none

/-- Python str.replace on character lists: non-overlapping, left to
right. -/
def replaceChars (pat rep : List Char) : List Char → List Char
  | [] => []
  | c :: rest =>
      if h : pat ≠ [] ∧ (c :: rest).take pat.length = pat then
        rep ++ replaceChars pat rep ((c :: rest).drop pat.length)
      else
        c :: replaceChars pat rep rest
termination_by s => s.length
decreasing_by
  · have hp : 0 < pat.length := List.length_pos.mpr h.1
    simp only [List.length_drop, List.length_cons]
    omega
  · simp

/-- Python str.replace. -/
def pyReplace (s pat rep : String) : String :=
  String.mk (replaceChars pat.toList rep.toList s.toList)

/-- dict.fromkeys dedup (line 501): keep the first occurrence of each
element, preserving order. -/
def dedupKeepFirst (l : List String) : List String :=
  l.foldl (fun acc x => if acc.contains x then acc else acc ++ [x]) []

/-- Field names of the Offer pydantic model (app/models/response.py,
Offer.__fields__): the allowed_fields set of line 306. -/
def offerAllowedFields : List String :=
  ["provider", "supplier_hotel_id", "hotel_id", "hotel_name",
   "supplier_room_code", "room_name", "room_category", "room_mapping_id",
   "total_price", "currency", "meal_plan", "free_cancellation_until",
   "room_features", "amenities"]

/-- Room-feature extraction (lines 445-501): serp_filters flags, rg_ext
characteristics, amenities_data entries, then dedup. none is a raise
(non-iterable collection, non-string entry reaching .replace, truthy
non-dict rg_ext, non-comparable view count), caught by the per-rate
handler. -/
def extractRoomFeatures (rkvs : List (String × PyVal)) :
    Option (List String) := do
  let elems ← pyIter (dget rkvs "serp_filters" (.vlist []))
  let feats1 ← elems.foldlM
    (fun acc f =>
      if pyEqAtom f (.vstr "has_bathroom") then some (acc ++ ["bathroom"])
      else if pyEqAtom f (.vstr "has_internet") then
        some (acc ++ ["internet"])
      else if pyEqAtom f (.vstr "has_wifi") || pyEqAtom f (.vstr "wifi")
        then some (acc ++ ["wifi"])
      else
        match f with
        | .vstr s =>
            some (acc ++ [pyReplace (pyReplace s "has_" "") "_" " "])
        | _ => none)
    ([] : List String)
  let rgExt := dget rkvs "rg_ext" (.vdict [])
  let feats2 ← (do
    if rgExt.truthy then
      let bathroom ← rgExt.getE "bathroom" (.vnum 0)
      let f1 :=
        if pyEqAtom bathroom (.vnum 2) then feats1 ++ ["private bathroom"]
        else if pyEqAtom bathroom (.vnum 1) then
          feats1 ++ ["shared bathroom"]
        else feats1
      let view ← rgExt.getE "view" (.vnum 0)
      let vgt ← pyGtZero view
      let f2 := if vgt then f1 ++ ["room with view"] else f1
      let balcony ← rgExt.getE "balcony" (.vnum 0)
      let bgt ← pyGtZero balcony
      let f3 := if bgt then f2 ++ ["balcony"] else f2
      let club ← rgExt.getE "club" (.vnum 0)
      let cgt ← pyGtZero club
      let f4 := if cgt then f3 ++ ["club access"] else f3
      let family ← rgExt.getE "family" (.vnum 0)
      let fgt ← pyGtZero family
      pure (if fgt then f4 ++ ["family friendly"] else f4)
    else
      pure feats1)
  let aelems ← pyIter (dget rkvs "amenities_data" (.vlist []))
  let feats3 ← aelems.foldlM
    (fun acc a =>
      match a with
      | .vstr s =>
          let c := pyReplace (pyReplace s "-" " ") "_" " "
          some (if acc.contains c then acc else acc ++ [c])
      | _ => none)
    feats2
  pure (dedupKeepFirst feats3)

/-- Offer-dict assembly of lines 506-543, gated by the Offer model
fields. -/
def buildOffer (providerName : String)
    (hotelName hotelIdVal hotelHid : PyVal)
    (rkvs : List (String × PyVal)) (roomName : PyVal) (totalAmount : Rat)
    (currency freeCancellationUntil : PyVal)
    (roomFeatures : List String) : List (String × PyVal) :=
  let fallbackId : String :=
    if hotelHid.truthy then pyStr hotelHid else pyStr hotelIdVal
  let o0 : List (String × PyVal) := []
  let o1 := if offerAllowedFields.contains "supplier_hotel_id" then
      o0 ++ [("supplier_hotel_id", hotelIdVal)] else o0
  let o2 := if offerAllowedFields.contains "hotel_id" then
      o1 ++ [("hotel_id", .vstr fallbackId)] else o1
  let o3 := if offerAllowedFields.contains "hotel_name" then
      o2 ++ [("hotel_name", hotelName)] else o2
  let o4 := if offerAllowedFields.contains "supplier_room_code" then
      o3 ++ [("supplier_room_code", dget rkvs "match_hash" (.vstr ""))]
    else o3
  let o5 := if offerAllowedFields.contains "room_name" then
      o4 ++ [("room_name", roomName)] else o4
  let o6 := if offerAllowedFields.contains "room_category" then
      o5 ++ [("room_category", .vnone)] else o5
  let o7 := if offerAllowedFields.contains "room_mapping_id" then
      o6 ++ [("room_mapping_id", .vnone)] else o6
  let o8 := if offerAllowedFields.contains "meal_plan" then
      o7 ++ [("meal_plan", dget rkvs "meal" .vnone)] else o7
  let o9 := if offerAllowedFields.contains "total_price" then
      o8 ++ [("total_price", .vnum totalAmount)] else o8
  let o10 := if offerAllowedFields.contains "currency" then
      o9 ++ [("currency", currency)] else o9
  let o11 := if offerAllowedFields.contains "room_features"
      ∧ roomFeatures ≠ [] then
      o10 ++ [("room_features", .vlist (roomFeatures.map PyVal.vstr))]
    else o10
  let o12 := if offerAllowedFields.contains "amenities" then
      o11 ++ [("amenities",
        match dget rkvs "amenities_data" .vnone with
        | .vlist xs => .vlist xs
        | _ => .vlist [])]
    else o11
  let o13 := if offerAllowedFields.contains "free_cancellation_until" then
      o12 ++ [("free_cancellation_until", freeCancellationUntil)] else o12
  o13 ++ [("provider", .vstr providerName)]

/-- Price, currency and cancellation extraction of lines 423-443 (the
payment_types truthiness guard already holds at this point). -/
def extractPayment (paymentTypes : PyVal) : Option (Rat × PyVal × PyVal) :=
  match pyIndexZero paymentTypes with
  | none => none
  | some firstPayment =>
  match firstPayment.getE "amount" (.vnum 0) with
  | none => none
  | some amountV =>
  match pyFloat amountV with
  | none => none
  | some totalAmount =>
  match firstPayment.getE "currency_code" (.vstr "EUR") with
  | none => none
  | some currency =>
  match firstPayment.getE "cancellation_penalties" .vnone with
  | none => none
  | some cancellationPenalties =>
  if cancellationPenalties.truthy then
    match cancellationPenalties.getE "free_cancellation_before" .vnone with
    | none => none
    | some fcu => some (totalAmount, currency, fcu)
  else
    some (totalAmount, currency, .vnone)

/-- Per-rate processing inside the try of lines 343-561, for a dict rate
(a non-dict rate raises at line 341 before the try, see foldRates). A
returned none is one skipped rate: the continue paths and the except
handler alike increment skipped_rates exactly once. -/
def processRate (providerName : String) (hotelName : PyVal)
    (hotelIdVal hotelHid : PyVal) (rkvs : List (String × PyVal)) :
    Option (List (String × PyVal)) :=
  let rate : PyVal := .vdict rkvs
  if ¬rate.truthy then none else
  let keys := rkvs.map Prod.fst
  if keys.length ≤ 1 ∧ keys.contains "legal_info" = true then none else
  if keys.length ≤ 2 ∧
    (keys.all fun k => ["legal_info", "id", "rate_id"].contains k) = true
    then none else
  let present := ["match_hash", "room_name", "payment_options",
    "daily_prices"].filter (fun f => (dget rkvs f .vnone).truthy)
  if present.length = 0 then none else
  let matchHash := dget rkvs "match_hash" .vnone
  if ¬matchHash.truthy then none else
  let roomName := dget rkvs "room_name" .vnone
  if ¬roomName.truthy then none else
  let paymentOptions := dget rkvs "payment_options" (.vdict [])
  match paymentOptions.getE "payment_types" (.vlist []) with
  | none => none
  | some paymentTypes =>
  if ¬paymentOptions.truthy then none else
  if ¬paymentTypes.truthy then none else
  match pyLen paymentTypes with
  | none => none
  | some ptLen =>
  if ptLen = 0 then none else
  let dailyPrices := dget rkvs "daily_prices" (.vlist [])
  if ¬dailyPrices.truthy then none else
  match pyLen dailyPrices with
  | none => none
  | some dpLen =>
  if dpLen = 0 then none else
  match extractPayment paymentTypes with
  | none => none
  | some pcf =>
  match extractRoomFeatures rkvs with
  | none => none
  | some roomFeatures =>
  some (buildOffer providerName hotelName hotelIdVal hotelHid rkvs
    roomName pcf.1 pcf.2.1 pcf.2.2 roomFeatures)

/-- State of the normalization loop: the offers built so far and the
skipped_rates counter. -/
abbrev NormState := List (List (String × PyVal)) × Nat

/-- The rate loop of one hotel (lines 339-561). A non-dict rate raises at
line 341 (list(rate.keys()) inside the eagerly evaluated logging
f-string, outside the per-rate try), so it aborts normalization with the
state built so far: the .error branch carries that state to the outer
handler. -/
def foldRates (providerName : String)
    (hotelName hotelIdVal hotelHid : PyVal) :
    List PyVal → NormState → Except NormState NormState
  | [], st => .ok st
  | r :: rs, (offers, skipped) =>
      match r with
      | .vdict rkvs =>
          match processRate providerName hotelName hotelIdVal hotelHid
            rkvs with
          | some offer =>
              foldRates providerName hotelName hotelIdVal hotelHid rs
                (offers ++ [offer], skipped)
          | none =>
              foldRates providerName hotelName hotelIdVal hotelHid rs
                (offers, skipped + 1)
      | _ => .error (offers, skipped)

/-- One hotel of the hotels array: the preamble of lines 311-337 (ids,
name-map lookup, the skip of hotels without a truthy id), then the rate
loop. An .error is an exception raised outside the per-rate try (a
non-dict hotel at hotel.get, a non-dict name map at .items(), a
non-iterable rates value at enumerate, a non-dict rate at line 341):
the outer handler of normalize catches it and returns the offers built
so far. -/
def processHotel (providerName : String) (rawKvs : List (String × PyVal))
    (st : NormState) (hotel : PyVal) : Except NormState NormState :=
  match hotel with
  | .vdict hkvs =>
      let hotelIdVal := dget hkvs "id" .vnone
      let hotelHid := dget hkvs "hid" hotelIdVal
      match dget rawKvs "hotel_id_to_name_map" (.vdict []) with
      | .vdict mkvs =>
          let found := mkvs.find?
            (fun p => p.1 == pyStr hotelIdVal || p.1 == pyStr hotelHid)
          let fallbackName : PyVal :=
            .vstr (if hotelHid.truthy then pyStr hotelHid
                   else pyStr hotelIdVal)
          let hotelName : PyVal :=
            match found with
            | some p => if p.2.truthy then p.2 else fallbackName
            | none => fallbackName
          if ¬hotelIdVal.truthy then .ok st
          else
            match pyIter (dget hkvs "rates" (.vlist [])) with
            | some rlist =>
                foldRates providerName hotelName hotelIdVal hotelHid
                  rlist st
            | none => .error st
      | _ => .error st
  | _ => .error st

/-- Fold with abort: an .error from the body is the exception the outer
try of normalize catches, and normalize then returns the offers collected
so far. -/
def foldAbort (f : σ → α → Except σ σ) : σ → List α → σ
  | st, [] => st
  | st, x :: xs =>
      match f st x with
      | .ok st1 => foldAbort f st1 xs
      | .error st1 => st1

/-- Embeds RateHawkProvider.normalize (rate_hawk.py lines 264-570):
returns the normalized offers and the skipped_rates counter. The function
is total — every exception inside is absorbed, per-rate ones by the rate
try (a skipped rate), the rest by the outer handler (which returns the
offers collected so far) — embedding the guarantee that normalize never
raises. -/
def normalizeRH (providerName : String) (raw : PyVal) : NormState :=
  match raw with
  | .vdict rkvs =>
      if ¬(PyVal.vdict rkvs).truthy then ([], 0)
      else if ¬(dget rkvs "data" .vnone).truthy then ([], 0)
      else
        match (dget rkvs "data" (.vdict [])).getE "hotels" (.vlist []) with
        | none => ([], 0)
        | some hotelsV =>
            match hotelsV with
            | .vlist hotels =>
                if hotels.isEmpty then ([], 0)
                else foldAbort (processHotel providerName rkvs) ([], 0)
                  hotels
            | _ => ([], 0)
  | _ => ([], 0)

/-- Number of rate entries listed for one hotel of the response. -/
def hotelEntries (hotel : PyVal) : Nat :=
  match hotel with
  | .vdict hkvs =>
      match pyIter (dget hkvs "rates" (.vlist [])) with
      | some rlist => rlist.length
      | none => 0
  | _ => 0

/-- Total number of rate entries across the hotels array of a raw
response. -/
def rawEntries (raw : PyVal) : Nat :=
  match raw with
  | .vdict rkvs =>
      match (dget rkvs "data" (.vdict [])).getE "hotels" (.vlist []) with
      | some (.vlist hotels) => (hotels.map hotelEntries).sum
      | _ => 0
  | _ => 0

/-- Value of an abortable computation: the normal result, or the partial
state the outer handler returns. -/
def exVal : Except NormState NormState → NormState
  | .ok st => st
  | .error st => st

/-- Offers plus skips: the measure each rate entry contributes at most
once to. -/
def offSkip (st : NormState) : Nat := st.1.length + st.2

theorem foldRates_bound (p : String) (hn hid hhid : PyVal) :
    ∀ (rlist : List PyVal) (st : NormState),
      offSkip (exVal (foldRates p hn hid hhid rlist st)) ≤
        offSkip st + rlist.length := by
  intro rlist
  induction rlist with
  | nil => intro st; simp [foldRates, exVal]
  | cons r rs ih =>
      intro st
      rcases st with ⟨offers, skipped⟩
      cases r with
      | vdict rkvs =>
          cases hpr : processRate p hn hid hhid rkvs with
          | some offer =>
              have hred : foldRates p hn hid hhid
                  (PyVal.vdict rkvs :: rs) (offers, skipped) =
                  foldRates p hn hid hhid rs (offers ++ [offer], skipped)
                  := by
                simp [foldRates, hpr]
              rw [hred]
              refine le_trans (ih (offers ++ [offer], skipped)) ?_
              simp only [offSkip, List.length_append, List.length_cons,
                List.length_nil]
              omega
          | none =>
              have hred : foldRates p hn hid hhid
                  (PyVal.vdict rkvs :: rs) (offers, skipped) =
                  foldRates p hn hid hhid rs (offers, skipped + 1) := by
                simp [foldRates, hpr]
              rw [hred]
              refine le_trans (ih (offers, skipped + 1)) ?_
              simp only [offSkip, List.length_cons]
              omega
      | vnone => simp [foldRates, exVal, offSkip]
      | vbool b => simp [foldRates, exVal, offSkip]
      | vnum q => simp [foldRates, exVal, offSkip]
      | vstr s2 => simp [foldRates, exVal, offSkip]
      | vlist xs => simp [foldRates, exVal, offSkip]

theorem processHotel_bound (p : String) (rawKvs : List (String × PyVal))
    (st : NormState) (hotel : PyVal) :
    offSkip (exVal (processHotel p rawKvs st hotel)) ≤
      offSkip st + hotelEntries hotel := by
  cases hotel with
  | vdict hkvs =>
      cases hmap : dget rawKvs "hotel_id_to_name_map" (.vdict []) with
      | vdict mkvs =>
          simp only [processHotel, hotelEntries, hmap]
          split
          · simp only [exVal]
            exact Nat.le_add_right _ _
          · cases hpi : pyIter (dget hkvs "rates" (.vlist [])) with
            | some rlist =>
                simp only [hpi]
                exact foldRates_bound p _ _ _ rlist _
            | none =>
                simp only [hpi, exVal]
                exact Nat.le_add_right _ _
      | vnone =>
          simp only [processHotel, hotelEntries, hmap, exVal]
          exact Nat.le_add_right _ _
      | vbool b =>
          simp only [processHotel, hotelEntries, hmap, exVal]
          exact Nat.le_add_right _ _
      | vnum q =>
          simp only [processHotel, hotelEntries, hmap, exVal]
          exact Nat.le_add_right _ _
      | vstr s2 =>
          simp only [processHotel, hotelEntries, hmap, exVal]
          exact Nat.le_add_right _ _
      | vlist xs =>
          simp only [processHotel, hotelEntries, hmap, exVal]
          exact Nat.le_add_right _ _
  | vnone => simp [processHotel, exVal, hotelEntries]
  | vbool b => simp [processHotel, exVal, hotelEntries]
  | vnum q => simp [processHotel, exVal, hotelEntries]
  | vstr s2 => simp [processHotel, exVal, hotelEntries]
  | vlist xs => simp [processHotel, exVal, hotelEntries]

theorem foldAbort_bound (p : String) (rawKvs : List (String × PyVal)) :
    ∀ (hotels : List PyVal) (st : NormState),
      offSkip (foldAbort (processHotel p rawKvs) st hotels) ≤
        offSkip st + (hotels.map hotelEntries).sum := by
  intro hotels
  induction hotels with
  | nil => intro st; simp [foldAbort]
  | cons h hs ih =>
      intro st
      unfold foldAbort
      cases hph : processHotel p rawKvs st h with
      | ok st1 =>
          have h1 : offSkip st1 ≤ offSkip st + hotelEntries h := by
            have hb := processHotel_bound p rawKvs st h
            rw [hph] at hb
            simpa [exVal] using hb
          have h2 := ih st1
          simp only [List.map_cons, List.sum_cons]
          omega
      | error st1 =>
          have h1 : offSkip st1 ≤ offSkip st + hotelEntries h := by
            have hb := processHotel_bound p rawKvs st h
            rw [hph] at hb
            simpa [exVal] using hb
          simp only [List.map_cons, List.sum_cons]
          omega

/-- C7: for the RateHawk adapter, normalize never yields more offers than
the response has rate entries, counting dropped entries in skipped_rates
(offers + skips never exceed the entries); when at least one entry was
malformed and dropped, the offers are strictly fewer than the entries;
and an absent or falsy (empty) response normalizes to the empty offer
list. The embedding is a total function: normalize never raises (every
internal raise is absorbed into a skip or into the partial-return of the
outer handler). -/
theorem claim_C7_normalize_drops_and_counts (p : String) (raw : PyVal) :
    (normalizeRH p raw).1.length + (normalizeRH p raw).2 ≤
      rawEntries raw ∧
    (1 ≤ (normalizeRH p raw).2 →
      (normalizeRH p raw).1.length < rawEntries raw) ∧
    normalizeRH p .vnone = ([], 0) ∧
    (¬raw.truthy → normalizeRH p raw = ([], 0)) := by
  have hmain : (normalizeRH p raw).1.length + (normalizeRH p raw).2 ≤
      rawEntries raw := by
    cases raw with
    | vdict rkvs =>
        simp only [normalizeRH, rawEntries]
        split
        · simp
        · split
          · simp
          · cases hget : (dget rkvs "data" (.vdict [])).getE "hotels"
              (.vlist []) with
            | none => simp [hget]
            | some hotelsV =>
                cases hotelsV with
                | vlist hotels =>
                    simp only [hget]
                    split
                    · simp
                    · have hb := foldAbort_bound p rkvs hotels ([], 0)
                      simp only [offSkip, List.length_nil,
                        Nat.zero_add] at hb
                      simpa using hb
                | vnone => simp [hget]
                | vbool b => simp [hget]
                | vnum q => simp [hget]
                | vstr s2 => simp [hget]
                | vdict kvs2 => simp [hget]
    | vnone => simp [normalizeRH, rawEntries]
    | vbool b => simp [normalizeRH, rawEntries]
    | vnum q => simp [normalizeRH, rawEntries]
    | vstr s2 => simp [normalizeRH, rawEntries]
    | vlist xs => simp [normalizeRH, rawEntries]
  refine ⟨hmain, fun h1 => by omega, rfl, ?_⟩
  intro ht
  cases raw with
  | vdict rkvs =>
      simp only [normalizeRH]
      rw [if_pos (by simpa using ht)]
  | vnone => rfl
  | vbool b => rfl
  | vnum q => rfl
  | vstr s2 => rfl
  | vlist xs => rfl

/-- Well-formed rate entry for the C7 witness. -/
def goodRate : PyVal := .vdict
  [("match_hash", .vstr "mh1"),
   ("room_name", .vstr "Standard Room"),
   ("payment_options", .vdict
     [("payment_types", .vlist
       [.vdict [("amount", .vstr "100.50"),
                ("currency_code", .vstr "EUR")]])]),
   ("daily_prices", .vlist [.vnum 50, .vnum 50])]

/-- Raw response for the C7 witness: one hotel with two rate entries, the
second completely empty (malformed, dropped and counted). -/
def rawMixed : PyVal := .vdict
  [("data", .vdict
     [("hotels", .vlist
       [.vdict [("id", .vnum 7), ("hid", .vstr "h7"),
                ("rates", .vlist [goodRate, .vdict []])]])]),
   ("hotel_id_to_name_map", .vdict [("h7", .vstr "Hotel Seven")])]

/-- Witness for C7 at a concrete input: two entries, one malformed; the
result has exactly one offer and one counted skip, strictly fewer offers
than entries; the absent (None) and empty ({}) responses normalize to no
offers. -/
theorem claim_C7_witness :
    1 ≤ (normalizeRH "rate_hawk" rawMixed).2 ∧
    (normalizeRH "rate_hawk" rawMixed).1.length < rawEntries rawMixed ∧
    (normalizeRH "rate_hawk" rawMixed).1.length = 1 ∧
    (normalizeRH "rate_hawk" rawMixed).2 = 1 ∧
    rawEntries rawMixed = 2 ∧
    normalizeRH "rate_hawk" .vnone = ([], 0) ∧
    normalizeRH "rate_hawk" (.vdict []) = ([], 0) := by
  have h := claim_C7_normalize_drops_and_counts "rate_hawk" rawMixed
  have h2 := claim_C7_normalize_drops_and_counts "rate_hawk" (.vdict [])
  have hskip : 1 ≤ (normalizeRH "rate_hawk" rawMixed).2 := by decide
  exact ⟨hskip, h.2.1 hskip, by decide, by decide, by decide, h.2.2.1,
    h2.2.2.2 (by decide)⟩

end CarterApi
